import Mathlib

/-
Verification of parser/parser.py: parsing of signal exchange block
instances from FMU metadata, wrapper Modelica code generation, and KPI
manifest serialization. Pure Python code is embedded as Lean functions;
the file system and the external compiler are modelled explicitly where
a claim depends on them.
-/

set_option maxHeartbeats 1000000
set_option maxRecDepth 100000

namespace BoptestParser

/-- Errors raised by the pipeline: the FMU version check in
parse_instances raises ValueError("FMU version must be 2.0")
(UnsupportedVersion), _make_var_name raises ValueError("Style ... unknown.")
(UnknownStyle), and the external compiler may fail. -/
inductive PipelineError
  | unsupportedVersion
  | unknownStyle (style : String)
  | compileFailed (msg : String)
deriving DecidableEq

/-- Character-level transform used by block.replace(".", "_")
in _make_var_name (parser.py line 200): a dot becomes an underscore,
every other character is unchanged. -/
def dotChar (c : Char) : Char :=
  if c = '.' then '_' else c

/-- Embedding of block.replace(".", "_") (parser.py line 200); since both
arguments are single characters, replace is a character map. -/
def dotToUnderscore (block : String) : String :=
  ⟨block.data.map dotChar⟩

/-- Embedding of _make_var_name (parser.py lines 181-211): general
modification replaces dots with underscores, then a style-specific suffix
is appended; an unknown style raises ValueError. The source compares the
style with the "is" operator on interned literals, whose evident intent
(per the spec design notes) is value equality, used here. -/
def _make_var_name (block style : String) : Except PipelineError String :=
  if style = "input_signal" then .ok (dotToUnderscore block ++ "_u")
  else if style = "input_activate" then .ok (dotToUnderscore block ++ "_activate")
  else if style = "output" then .ok (dotToUnderscore block ++ "_y")
  else .error (.unknownStyle style)

/-- Total view of _make_var_name at the style "input_signal", which the
source only calls with literal styles that never raise. -/
def inputSignalNameOf (block : String) : String :=
  match _make_var_name block "input_signal" with
  | .ok n => n
  | .error _ => ""

/-- Total view of _make_var_name at the style "input_activate". -/
def inputActivateNameOf (block : String) : String :=
  match _make_var_name block "input_activate" with
  | .ok n => n
  | .error _ => ""

/-- Total view of _make_var_name at the style "output". -/
def outputNameOf (block : String) : String :=
  match _make_var_name block "output" with
  | .ok n => n
  | .error _ => ""

/-- Embedding of the Python str.split method for a one-character
separator, on the character list of the string: maximal runs between
separator occurrences, so the empty string yields one empty field and
adjacent separators yield empty fields. -/
def splitChar (sep : Char) : List Char → List (List Char)
  | [] => [[]]
  | c :: rest =>
    match splitChar sep rest with
    | [] => [[]]
    | cur :: parts => if c = sep then [] :: cur :: parts else (c :: cur) :: parts

/-- Embedding of ".".join(var.split(".")[:-1]) (parser.py line 68): the
instance path of a variable, the name with its last dot-separated segment
stripped. -/
def stripLast (var : String) : String :=
  String.intercalate "." (((splitChar '.' var.data).map String.mk).dropLast)

/-- Embedding of the Python substring test `marker in var`: the marker
occurs contiguously inside the variable name. -/
def containsSub (var marker : String) : Bool :=
  decide (marker.data <:+: var.data)

/-- The classification dictionary built by parse_instances
(parser.py line 52): ordered lists of instance paths under the keys
"Overwrite" and "Read". -/
structure Instances where
  Overwrite : List String
  Read : List String
deriving DecidableEq

/-- The kpis dictionary (parser.py line 53) as an association list from
KPI name to the ordered list of contributing output variable names. -/
abbrev KpiMap := List (String × List String)

/-- Embedding of the dictionary update in parser.py lines 76-79: if the
key is present its list grows by one element at the end, otherwise a new
singleton entry is created. -/
def kpiAppend (m : KpiMap) (k v : String) : KpiMap :=
  match m with
  | [] => [(k, [v])]
  | (k', vs) :: rest =>
      if k' = k then (k', vs ++ [v]) :: rest else (k', vs) :: kpiAppend rest k v

/-- Lookup in the KPI association list. -/
def kpiLookup (m : KpiMap) (k : String) : Option (List String) :=
  match m with
  | [] => none
  | (k', vs) :: rest => if k' = k then some vs else kpiLookup rest k

/-- Embedding of one iteration of the classification loop of
parse_instances (parser.py lines 55-79) on a pair of variable name and
variable value: first match among the markers "boptestOverwrite",
"boptestRead" and "KPIs" wins; Overwrite and Read matches append the
instance path; a KPI match splits the value on commas and records the
output-style name of the instance under each non-empty token. -/
def classify (st : Instances × KpiMap) (v : String × String) : Instances × KpiMap :=
  if containsSub v.1 "boptestOverwrite" then
    ({ st.1 with Overwrite := st.1.Overwrite ++ [stripLast v.1] }, st.2)
  else if containsSub v.1 "boptestRead" then
    ({ st.1 with Read := st.1.Read ++ [stripLast v.1] }, st.2)
  else if containsSub v.1 "KPIs" then
    (st.1,
      ((splitChar ',' v.2.data).map String.mk).foldl
        (fun m tok => if tok = "" then m else kpiAppend m tok (outputNameOf (stripLast v.1)))
        st.2)
  else st

/-- Metadata of a loaded FMU as parse_instances consumes it: the reported
interface version and the variables of constant and parameter variability
(the two keys() lists concatenated, parser.py lines 49-50), each paired
with its current value as read by fmu.get. -/
structure Fmu where
  version : String
  vars : List (String × String)

/-- Embedding of the pure core of parse_instances (parser.py lines 44-84):
the version check followed by the classification loop over all scanned
variables, starting from empty Overwrite and Read lists and an empty KPI
dictionary. -/
def parse_instances (fmu : Fmu) : Except PipelineError (Instances × KpiMap) :=
  if fmu.version ≠ "2.0" then .error .unsupportedVersion
  else .ok (fmu.vars.foldl classify (⟨[], []⟩, []))

/-- Text of the two input declarations written per Overwrite block
(parser.py lines 125-127). -/
def overwriteDecl (block : String) : String :=
  "\tModelica.Blocks.Interfaces.RealInput " ++ inputSignalNameOf block ++
    " \"Signal for overwrite block " ++ block ++ "\";\n" ++
  "\tModelica.Blocks.Interfaces.BooleanInput " ++ inputActivateNameOf block ++
    " \"Activation for overwrite block " ++ block ++ "\";\n"

/-- Text of the output declaration written per Read block
(parser.py line 132). -/
def readDecl (block : String) : String :=
  "\tModelica.Blocks.Interfaces.RealOutput " ++ outputNameOf block ++
    " = mod." ++ block ++ ".y \"Measured signal for " ++ block ++ "\";\n"

/-- Text of one connection entry in the instantiation of the original
model (parser.py line 138). -/
def connectEntry (block : String) : String :=
  "\t\t" ++ block ++ "(uExt(y=" ++ inputSignalNameOf block ++ "),activate(y=" ++
    inputActivateNameOf block ++ "))"

/-- Embedding of the connection loop of write_wrapper (parser.py lines
137-142): each entry is followed by a comma, except the last, which is
followed by the closing parenthesis and terminating semicolon of the
instantiation; an empty Overwrite list emits nothing, in particular no
closing text. -/
def connectLines : List String → String
  | [] => ""
  | [block] => connectEntry block ++ ") \"Original model with overwrites\";\n"
  | block :: rest => connectEntry block ++ ",\n" ++ connectLines rest

/-- Embedding of the wrapper text written by write_wrapper (parser.py
lines 112-144) to wrapped.mo, as a function of the model path and the
classification. The input_signals and input_activate dictionaries of the
source always map a block to _make_var_name of that block, so the name
functions are used directly. -/
def write_wrapper (model_path : String) (instances : Instances) : String :=
  "model wrapped \"Wrapped model\"\n" ++
  "\t// Input overwrite\n" ++
  String.join (instances.Overwrite.map overwriteDecl) ++
  "\t// Out read\n" ++
  String.join (instances.Read.map readDecl) ++
  "\t// Original model\n" ++
  "\t" ++ model_path ++ " mod(\n" ++
  connectLines instances.Overwrite ++
  "end wrapped;"

/-- JSON rendering of a string, for names free of characters that
json.dump would escape. -/
def jsonStr (s : String) : String := "\"" ++ s ++ "\""

/-- Embedding of json.dump(kpis, f) (parser.py line 177) on the KPI
dictionary: a JSON object whose keys are KPI names and whose values are
arrays of output variable names. -/
def serializeKpis (kpis : KpiMap) : String :=
  "\x7b" ++
    String.intercalate ", "
      (kpis.map (fun kv =>
        jsonStr kv.1 ++ ": [" ++ String.intercalate ", " (kv.2.map jsonStr) ++ "]")) ++
  "\x7d"

/-- Disk state as an association of file names to contents. -/
abbrev Disk := List (String × String)

/-- Writing a file replaces any previous content under that name. -/
def writeFile (disk : Disk) (path content : String) : Disk :=
  disk.filter (fun e => e.1 ≠ path) ++ [(path, content)]

/-- Content of a file on disk, if present. -/
def fileLookup (disk : Disk) (path : String) : Option String :=
  match disk with
  | [] => none
  | e :: rest => if e.1 = path then some e.2 else fileLookup rest path

/-- Effect-level embedding of write_wrapper (parser.py lines 110-148):
the wrapper source wrapped.mo is fully written before compile_fmu is
invoked on it; the result of that external compilation is a parameter.
On compiler failure the exception propagates after the write. -/
def write_wrapper_fs (model_path : String) (instances : Instances)
    (compileResult : Except PipelineError String) (disk : Disk) :
    Except PipelineError (String × String) × Disk :=
  let disk1 := writeFile disk "wrapped.mo" (write_wrapper model_path instances)
  match compileResult with
  | .error e => (.error e, disk1)
  | .ok fmu_path => (.ok (fmu_path, "wrapped.mo"), disk1)

/-- Effect-level embedding of the tail of export_fmu (parser.py lines
170-179) after parse_instances has succeeded with the given result:
write_wrapper runs, and only if it returns is kpis.json written. -/
def export_fmu_fs (model_path : String) (parsed : Instances × KpiMap)
    (compileResult : Except PipelineError String) (disk : Disk) :
    Except PipelineError (String × String) × Disk :=
  match write_wrapper_fs model_path parsed.1 compileResult disk with
  | (.error e, disk1) => (.error e, disk1)
  | (.ok (fmu_path, _), disk1) =>
      (.ok (fmu_path, "kpis.json"), writeFile disk1 "kpis.json" (serializeKpis parsed.2))

/-- Value of _make_var_name at the style "input_signal". -/
theorem make_var_name_input_signal (p : String) :
    _make_var_name p "input_signal" = .ok (dotToUnderscore p ++ "_u") := rfl

/-- Value of _make_var_name at the style "input_activate". -/
theorem make_var_name_input_activate (p : String) :
    _make_var_name p "input_activate" = .ok (dotToUnderscore p ++ "_activate") := rfl

/-- Value of _make_var_name at the style "output". -/
theorem make_var_name_output (p : String) :
    _make_var_name p "output" = .ok (dotToUnderscore p ++ "_y") := rfl

/-- The dot-to-underscore character map is injective away from the
underscore character. -/
theorem dotChar_inj (a b : Char) (ha : a ≠ '_') (hb : b ≠ '_')
    (h : dotChar a = dotChar b) : a = b := by
  unfold dotChar at h
  by_cases h1 : a = '.'
  · by_cases h2 : b = '.'
    · exact h1.trans h2.symm
    · rw [if_pos h1, if_neg h2] at h
      exact absurd h.symm hb
  · by_cases h2 : b = '.'
    · rw [if_neg h1, if_pos h2] at h
      exact absurd h ha
    · rwa [if_neg h1, if_neg h2] at h

/-- Mapping the dot-to-underscore transform over character lists is
injective on lists free of underscores. -/
theorem map_dotChar_inj (l₁ : List Char) :
    ∀ l₂, (∀ c ∈ l₁, c ≠ '_') → (∀ c ∈ l₂, c ≠ '_') →
      l₁.map dotChar = l₂.map dotChar → l₁ = l₂ := by
  induction l₁ with
  | nil =>
    intro l₂ _ _ h
    cases l₂ with
    | nil => rfl
    | cons b bs => simp at h
  | cons a as ih =>
    intro l₂ h₁ h₂ h
    cases l₂ with
    | nil => simp at h
    | cons b bs =>
      simp only [List.map_cons, List.cons.injEq] at h
      have hab := dotChar_inj a b (h₁ a (by simp)) (h₂ b (by simp)) h.1
      have hrest := ih bs (fun c hc => h₁ c (by simp [hc])) (fun c hc => h₂ c (by simp [hc])) h.2
      rw [hab, hrest]

/-- C3: _make_var_name replaces every dot of the instance path by an
underscore and appends the suffix determined by the style, "_u" for
input_signal, "_activate" for input_activate, "_y" for output, compared
by exact value equality; it fails with an UnknownStyle error exactly for
every other style value. -/
theorem make_var_name_styles_and_error :
    (∀ p, _make_var_name p "input_signal" = .ok (dotToUnderscore p ++ "_u")) ∧
    (∀ p, _make_var_name p "input_activate" = .ok (dotToUnderscore p ++ "_activate")) ∧
    (∀ p, _make_var_name p "output" = .ok (dotToUnderscore p ++ "_y")) ∧
    (∀ p s, s ≠ "input_signal" → s ≠ "input_activate" → s ≠ "output" →
      _make_var_name p s = .error (.unknownStyle s)) ∧
    (∀ p s e, _make_var_name p s = .error e →
      s ≠ "input_signal" ∧ s ≠ "input_activate" ∧ s ≠ "output" ∧ e = .unknownStyle s) := by
  refine ⟨make_var_name_input_signal, make_var_name_input_activate, make_var_name_output, ?_, ?_⟩
  · intro p s h1 h2 h3
    unfold _make_var_name
    rw [if_neg h1, if_neg h2, if_neg h3]
  · intro p s e h
    unfold _make_var_name at h
    by_cases h1 : s = "input_signal"
    · rw [if_pos h1] at h
      exact Except.noConfusion h
    · rw [if_neg h1] at h
      by_cases h2 : s = "input_activate"
      · rw [if_pos h2] at h
        exact Except.noConfusion h
      · rw [if_neg h2] at h
        by_cases h3 : s = "output"
        · rw [if_pos h3] at h
          exact Except.noConfusion h
        · rw [if_neg h3] at h
          injection h with h4
          exact ⟨h1, h2, h3, h4.symm⟩

/-- Witness for C3 at the concrete style "bogus". -/
theorem make_var_name_styles_and_error_witness :
    _make_var_name "zone.heater" "bogus" = .error (.unknownStyle "bogus") ∧
    ("bogus" : String) ≠ "input_signal" ∧ ("bogus" : String) ≠ "input_activate" ∧
      ("bogus" : String) ≠ "output" ∧
      PipelineError.unknownStyle "bogus" = .unknownStyle "bogus" := by
  have h1 := make_var_name_styles_and_error.2.2.2.1 "zone.heater" "bogus"
    (by decide) (by decide) (by decide)
  have h2 := make_var_name_styles_and_error.2.2.2.2 "zone.heater" "bogus"
    (.unknownStyle "bogus") (by rfl)
  exact ⟨h1, h2.1, h2.2.1, h2.2.2.1, h2.2.2.2⟩

/-- C9: for every instance path the three generated names for the styles
input_signal, input_activate and output are pairwise distinct; as a pure
function of its arguments, _make_var_name is deterministic by
construction. -/
theorem make_var_name_pairwise_distinct (p : String) :
    _make_var_name p "input_signal" ≠ _make_var_name p "input_activate" ∧
    _make_var_name p "input_signal" ≠ _make_var_name p "output" ∧
    _make_var_name p "input_activate" ≠ _make_var_name p "output" := by
  rw [make_var_name_input_signal, make_var_name_input_activate, make_var_name_output]
  refine ⟨fun h => ?_, fun h => ?_, fun h => ?_⟩
  all_goals
    simp only [Except.ok.injEq] at h
  all_goals
    have hd := congrArg String.data h
  all_goals
    simp only [String.data_append] at hd
  all_goals
    exact absurd (List.append_cancel_left hd) (by decide)

/-- C5: parse_instances fails with UnsupportedVersion for every reported
version other than "2.0", whatever the variable list is, so before any
variable is classified; for version "2.0" it returns a classification. -/
theorem parse_instances_version_check :
    (∀ version vars, version ≠ "2.0" →
      parse_instances ⟨version, vars⟩ = .error .unsupportedVersion) ∧
    (∀ vars, ∃ r, parse_instances ⟨"2.0", vars⟩ = .ok r) := by
  constructor
  · intro version vars h
    simp [parse_instances, h]
  · intro vars
    exact ⟨vars.foldl classify (⟨[], []⟩, []), by simp [parse_instances]⟩

/-- Witness for C5 at the concrete version "1.0". -/
theorem parse_instances_version_check_witness :
    parse_instances ⟨"1.0", [("a.boptestRead", "")]⟩ = .error .unsupportedVersion :=
  parse_instances_version_check.1 "1.0" [("a.boptestRead", "")] (by decide)

/-- C6 counterexample: the distinct instance paths zone.heater and
zone_heater collide after the dots are replaced by underscores, so the
transform applied by _make_var_name is not injective on arbitrary
discovered instance paths. -/
theorem dot_underscore_collision :
    ("zone.heater" : String) ≠ "zone_heater" ∧
    _make_var_name "zone.heater" "output" = _make_var_name "zone_heater" "output" :=
  ⟨by decide, rfl⟩

/-- C6 amended: on instance paths containing no underscore the transform
of _make_var_name is injective, so two such distinct paths never collide
to the same generated variable name. -/
theorem make_var_name_injective_underscore_free (p q : String)
    (hp : ∀ c ∈ p.data, c ≠ '_') (hq : ∀ c ∈ q.data, c ≠ '_')
    (h : _make_var_name p "output" = _make_var_name q "output") : p = q := by
  rw [make_var_name_output, make_var_name_output] at h
  simp only [Except.ok.injEq] at h
  have hd := congrArg String.data h
  simp only [String.data_append] at hd
  have h2 : p.data.map dotChar = q.data.map dotChar := List.append_cancel_right hd
  have h4 := map_dotChar_inj p.data q.data hp hq h2
  cases p
  cases q
  exact congrArg String.mk h4

/-- Witness for C6 amended at a concrete underscore-free path. -/
theorem make_var_name_injective_underscore_free_witness :
    ("zone.heater" : String) = "zone.heater" :=
  make_var_name_injective_underscore_free "zone.heater" "zone.heater"
    (by decide) (by decide) rfl

/-- A variable name that falls in the Overwrite branch of the
classification loop. -/
def isOverVar (var : String) : Bool := containsSub var "boptestOverwrite"

/-- A variable name that falls in the Read branch of the classification
loop: no Overwrite marker present and the Read marker present, since the
first match wins. -/
def isReadVar (var : String) : Bool :=
  !containsSub var "boptestOverwrite" && containsSub var "boptestRead"

/-- One classification step appends the instance path to the Overwrite
list exactly when the Overwrite marker occurs in the variable name. -/
theorem classify_fst_Overwrite (st : Instances × KpiMap) (v : String × String) :
    (classify st v).1.Overwrite =
      st.1.Overwrite ++ (if isOverVar v.1 then [stripLast v.1] else []) := by
  unfold classify isOverVar
  by_cases h1 : containsSub v.1 "boptestOverwrite"
  · rw [if_pos h1, if_pos h1]
  · rw [if_neg h1, if_neg h1]
    by_cases h2 : containsSub v.1 "boptestRead"
    · rw [if_pos h2]
      simp
    · rw [if_neg h2]
      by_cases h3 : containsSub v.1 "KPIs"
      · rw [if_pos h3]
        simp
      · rw [if_neg h3]
        simp

/-- One classification step appends the instance path to the Read list
exactly when the Read marker occurs and the Overwrite marker does not. -/
theorem classify_fst_Read (st : Instances × KpiMap) (v : String × String) :
    (classify st v).1.Read =
      st.1.Read ++ (if isReadVar v.1 then [stripLast v.1] else []) := by
  unfold classify isReadVar
  by_cases h1 : containsSub v.1 "boptestOverwrite"
  · rw [if_pos h1]
    simp [h1]
  · rw [if_neg h1]
    by_cases h2 : containsSub v.1 "boptestRead"
    · rw [if_pos h2]
      simp [h1, h2]
    · rw [if_neg h2]
      by_cases h3 : containsSub v.1 "KPIs"
      · rw [if_pos h3]
        simp [h1, h2]
      · rw [if_neg h3]
        simp [h1, h2]

/-- Over the whole variable list the Overwrite list accumulates, in
order, the instance path of every variable matching the Overwrite
marker. -/
theorem foldl_classify_Overwrite (vs : List (String × String)) (st : Instances × KpiMap) :
    (vs.foldl classify st).1.Overwrite =
      st.1.Overwrite ++ (vs.filter (fun v => isOverVar v.1)).map (fun v => stripLast v.1) := by
  induction vs generalizing st with
  | nil => simp
  | cons v vs ih =>
    rw [List.foldl_cons, ih, classify_fst_Overwrite]
    by_cases h : isOverVar v.1
    · simp [List.filter_cons, h]
    · simp [List.filter_cons, h]

/-- Over the whole variable list the Read list accumulates, in order,
the instance path of every variable matching the Read branch. -/
theorem foldl_classify_Read (vs : List (String × String)) (st : Instances × KpiMap) :
    (vs.foldl classify st).1.Read =
      st.1.Read ++ (vs.filter (fun v => isReadVar v.1)).map (fun v => stripLast v.1) := by
  induction vs generalizing st with
  | nil => simp
  | cons v vs ih =>
    rw [List.foldl_cons, ih, classify_fst_Read]
    by_cases h : isReadVar v.1
    · simp [List.filter_cons, h]
    · simp [List.filter_cons, h]

/-- C2: on a version 2.0 FMU, parse_instances appends to the Overwrite
list the instance path (the name with its last dot-separated segment
stripped) of every variable containing the Overwrite marker, and to the
Read list that of every remaining variable containing the Read marker,
first match winning; one append per qualifying variable and no
deduplication, so the same instance reached through two qualifying
variable names is recorded twice, as the concrete run shows. -/
theorem parse_instances_overwrite_read_classification (vs : List (String × String)) :
    (∃ r, parse_instances ⟨"2.0", vs⟩ = .ok r ∧
      r.1.Overwrite = (vs.filter (fun v => isOverVar v.1)).map (fun v => stripLast v.1) ∧
      r.1.Read = (vs.filter (fun v => isReadVar v.1)).map (fun v => stripLast v.1)) ∧
    parse_instances ⟨"2.0", [("a.b.boptestOverwrite", ""), ("a.b.uboptestOverwrite", "")]⟩ =
      .ok (⟨["a.b", "a.b"], []⟩, []) := by
  constructor
  · refine ⟨vs.foldl classify (⟨[], []⟩, []), by simp [parse_instances], ?_, ?_⟩
    · rw [foldl_classify_Overwrite]
      simp
    · rw [foldl_classify_Read]
      simp
  · rfl

/-- Folding a comma token list while skipping empty tokens is folding
over the non-empty tokens. -/
theorem foldl_skip_empty (g : KpiMap → String → KpiMap) (toks : List String) (m : KpiMap) :
    toks.foldl (fun acc tok => if tok = "" then acc else g acc tok) m =
      (toks.filter (fun tok => tok ≠ "")).foldl g m := by
  induction toks generalizing m with
  | nil => rfl
  | cons t ts ih =>
    by_cases h : t = ""
    · simp [List.filter_cons, h, ih]
    · simp [List.filter_cons, h, ih]

/-- C4: a variable matching only the KPI marker leaves the classification
lists unchanged and folds the non-empty comma-separated tokens of its
value into the KPI map, appending under each token the output-style name
of the owning instance; an append creates a singleton list on the first
occurrence of a key and extends the existing list on later occurrences,
so a KPI name occurring in the values of two distinct variables
accumulates both output names in order of discovery, as the concrete run
shows. -/
theorem parse_instances_kpi_accumulation :
    (∀ (st : Instances × KpiMap) (var value : String),
      containsSub var "boptestOverwrite" = false →
      containsSub var "boptestRead" = false →
      containsSub var "KPIs" = true →
      classify st (var, value) =
        (st.1, (((splitChar ',' value.data).map String.mk).filter (fun tok => tok ≠ "")).foldl
          (fun m tok => kpiAppend m tok (outputNameOf (stripLast var))) st.2)) ∧
    (∀ (m : KpiMap) (k v : String),
      kpiLookup (kpiAppend m k v) k = some ((kpiLookup m k).getD [] ++ [v])) ∧
    parse_instances ⟨"2.0", [("a.b.KPIs", "energy,comfort"), ("c.KPIs", "energy")]⟩ =
      .ok (⟨[], []⟩, [("energy", ["a_b_y", "c_y"]), ("comfort", ["a_b_y"])]) := by
  refine ⟨?_, ?_, ?_⟩
  · intro st var value h1 h2 h3
    unfold classify
    rw [if_neg (show ¬ containsSub (var, value).1 "boptestOverwrite" = true by simp [h1]),
        if_neg (show ¬ containsSub (var, value).1 "boptestRead" = true by simp [h2]),
        if_pos (show containsSub (var, value).1 "KPIs" = true by simp [h3])]
    rw [foldl_skip_empty]
  · intro m k v
    induction m with
    | nil => simp [kpiAppend, kpiLookup]
    | cons e rest ih =>
      obtain ⟨k', vs⟩ := e
      by_cases h : k' = k
      · simp [kpiAppend, kpiLookup, h]
      · simp [kpiAppend, kpiLookup, h, ih]
  · rfl

/-- Witness for C4 at a concrete KPI variable and a concrete append. -/
theorem parse_instances_kpi_accumulation_witness :
    classify (⟨[], []⟩, []) ("a.b.KPIs", "energy,") =
      ((⟨[], []⟩ : Instances), [("energy", ["a_b_y"])]) ∧
    kpiLookup (kpiAppend [] "energy" "a_b_y") "energy" =
      some ((kpiLookup ([] : KpiMap) "energy").getD [] ++ ["a_b_y"]) := by
  constructor
  · rw [parse_instances_kpi_accumulation.1 (⟨[], []⟩, []) "a.b.KPIs" "energy,"
      (by decide) (by decide) (by decide)]
    rfl
  · exact parse_instances_kpi_accumulation.2.1 [] "energy" "a_b_y"

/-- Appending to the KPI map preserves non-emptiness of every value
list. -/
theorem kpiAppend_values_nonempty (m : KpiMap) (k v : String) :
    (∀ kv ∈ m, kv.2 ≠ []) → ∀ kv ∈ kpiAppend m k v, kv.2 ≠ [] := by
  induction m with
  | nil =>
    intro _ kv hkv
    simp [kpiAppend] at hkv
    simp [hkv]
  | cons e rest ih =>
    intro h kv hkv
    obtain ⟨k', vs⟩ := e
    by_cases hk : k' = k
    · simp only [kpiAppend, if_pos hk] at hkv
      rcases List.mem_cons.mp hkv with h1 | h2
      · subst h1
        simp
      · exact h kv (List.mem_cons_of_mem _ h2)
    · simp only [kpiAppend, if_neg hk] at hkv
      rcases List.mem_cons.mp hkv with h1 | h2
      · exact h kv (h1 ▸ List.mem_cons_self _ _)
      · exact ih (fun kv hkv => h kv (List.mem_cons_of_mem _ hkv)) kv h2

/-- The token fold of one KPI variable preserves non-emptiness of every
value list. -/
theorem foldl_kpi_nonempty (name : String) (toks : List String) (m : KpiMap) :
    (∀ kv ∈ m, kv.2 ≠ []) →
    ∀ kv ∈ toks.foldl (fun acc tok => if tok = "" then acc else kpiAppend acc tok name) m,
      kv.2 ≠ [] := by
  induction toks generalizing m with
  | nil =>
    intro h
    simpa using h
  | cons t ts ih =>
    intro h
    rw [List.foldl_cons]
    by_cases ht : t = ""
    · rw [if_pos ht]
      exact ih m h
    · rw [if_neg ht]
      exact ih _ (kpiAppend_values_nonempty m t name h)

/-- One classification step preserves non-emptiness of every KPI value
list. -/
theorem classify_kpi_values_nonempty (st : Instances × KpiMap) (v : String × String) :
    (∀ kv ∈ st.2, kv.2 ≠ []) → ∀ kv ∈ (classify st v).2, kv.2 ≠ [] := by
  intro h
  unfold classify
  by_cases h1 : containsSub v.1 "boptestOverwrite"
  · rw [if_pos h1]
    exact h
  · rw [if_neg h1]
    by_cases h2 : containsSub v.1 "boptestRead"
    · rw [if_pos h2]
      exact h
    · rw [if_neg h2]
      by_cases h3 : containsSub v.1 "KPIs"
      · rw [if_pos h3]
        exact foldl_kpi_nonempty _ _ _ h
      · rw [if_neg h3]
        exact h

/-- The whole classification loop preserves non-emptiness of every KPI
value list. -/
theorem foldl_classify_kpis_nonempty (vs : List (String × String)) (st : Instances × KpiMap) :
    (∀ kv ∈ st.2, kv.2 ≠ []) → ∀ kv ∈ (vs.foldl classify st).2, kv.2 ≠ [] := by
  induction vs generalizing st with
  | nil =>
    intro h
    simpa using h
  | cons v vs ih =>
    intro h
    rw [List.foldl_cons]
    exact ih _ (classify_kpi_values_nonempty st v h)

/-- C10: every value in the KPI map returned by parse_instances is a
non-empty list, since a key is only created together with a singleton
list and existing lists only grow by appends. -/
theorem parse_instances_kpi_values_nonempty (fmu : Fmu) (r : Instances × KpiMap)
    (h : parse_instances fmu = .ok r) : ∀ kv ∈ r.2, kv.2 ≠ [] := by
  unfold parse_instances at h
  by_cases hv : fmu.version ≠ "2.0"
  · rw [if_pos hv] at h
    exact Except.noConfusion h
  · rw [if_neg hv] at h
    injection h with h'
    subst h'
    exact foldl_classify_kpis_nonempty fmu.vars (⟨[], []⟩, []) (by simp)

/-- Witness for C10 at a concrete one-variable FMU. -/
theorem parse_instances_kpi_values_nonempty_witness :
    (["a_y"] : List String) ≠ [] :=
  parse_instances_kpi_values_nonempty ⟨"2.0", [("a.KPIs", "k")]⟩
    (⟨[], []⟩, [("k", ["a_y"])]) (by rfl) ("k", ["a_y"]) (by simp)

/-- Rewriting a file makes its content the looked-up one. -/
theorem fileLookup_writeFile_same (disk : Disk) (p c : String) :
    fileLookup (writeFile disk p c) p = some c := by
  unfold writeFile
  induction disk with
  | nil => simp [fileLookup]
  | cons e es ih =>
    by_cases h : e.1 = p
    · simpa [List.filter_cons, h] using ih
    · simpa [List.filter_cons, fileLookup, h] using ih

/-- Unfolding lemma for fileLookup on a non-empty disk. -/
theorem fileLookup_cons (e : String × String) (rest : Disk) (q : String) :
    fileLookup (e :: rest) q = if e.1 = q then some e.2 else fileLookup rest q := rfl

/-- Writing one file leaves every other file name unchanged. -/
theorem fileLookup_writeFile_other (disk : Disk) (p q c : String) (hqp : q ≠ p) :
    fileLookup (writeFile disk p c) q = fileLookup disk q := by
  unfold writeFile
  induction disk with
  | nil =>
    rw [List.filter_nil, List.nil_append, fileLookup_cons,
      if_neg (fun hpq => hqp hpq.symm)]
  | cons e es ih =>
    rw [List.filter_cons]
    by_cases h : e.1 = p
    · rw [if_neg (show ¬ decide (e.1 ≠ p) = true by simp [h])]
      rw [fileLookup_cons, if_neg (fun hq => hqp (h.symm.trans hq).symm)]
      exact ih
    · rw [if_pos (show decide (e.1 ≠ p) = true by simp [h])]
      rw [List.cons_append, fileLookup_cons, fileLookup_cons]
      by_cases hq : e.1 = q
      · rw [if_pos hq, if_pos hq]
      · rw [if_neg hq, if_neg hq]
        exact ih

/-- C7: if the wrapper compilation inside write_wrapper fails after a
successful introspection, the wrapper source wrapped.mo has already been
written with the generated text and remains on disk, kpis.json is not
written (absent before, absent after), no cleanup occurs, and the
compiler error propagates to the caller of export_fmu. -/
theorem export_fmu_partial_failure (model_path : String) (parsed : Instances × KpiMap)
    (e : PipelineError) (disk : Disk) :
    export_fmu_fs model_path parsed (.error e) disk =
      (.error e, writeFile disk "wrapped.mo" (write_wrapper model_path parsed.1)) ∧
    fileLookup (export_fmu_fs model_path parsed (.error e) disk).2 "wrapped.mo" =
      some (write_wrapper model_path parsed.1) ∧
    (fileLookup disk "kpis.json" = none →
      fileLookup (export_fmu_fs model_path parsed (.error e) disk).2 "kpis.json" = none) := by
  have h0 : export_fmu_fs model_path parsed (.error e) disk =
      (.error e, writeFile disk "wrapped.mo" (write_wrapper model_path parsed.1)) := rfl
  refine ⟨h0, ?_, ?_⟩
  · rw [h0]
    exact fileLookup_writeFile_same disk "wrapped.mo" _
  · intro hk
    rw [h0]
    rw [fileLookup_writeFile_other disk "wrapped.mo" "kpis.json" _ (by decide)]
    exact hk

/-- Witness for C7 at a concrete failing compilation on an empty disk. -/
theorem export_fmu_partial_failure_witness :
    fileLookup (export_fmu_fs "SimpleRC" (⟨[], []⟩, []) (.error (.compileFailed "boom")) []).2
      "kpis.json" = none ∧
    fileLookup (export_fmu_fs "SimpleRC" (⟨[], []⟩, []) (.error (.compileFailed "boom")) []).2
      "wrapped.mo" = some (write_wrapper "SimpleRC" ⟨[], []⟩) :=
  ⟨(export_fmu_partial_failure "SimpleRC" (⟨[], []⟩, []) (.compileFailed "boom") []).2.2 rfl,
   (export_fmu_partial_failure "SimpleRC" (⟨[], []⟩, []) (.compileFailed "boom") []).2.1⟩

/-- C1: with an empty Overwrite list the generated wrapper is NOT
syntactically closed: the instantiation line "SimpleRC mod(" is emitted
but no closing parenthesis ever appears in the output, since the closing
text is only written on the last iteration of a loop that never runs.
This exhibits the failing input for the claim that the instantiation is
closed even when the connection loop body never runs. -/
theorem write_wrapper_empty_overwrite_unclosed :
    write_wrapper "SimpleRC" ⟨[], []⟩ =
      "model wrapped \"Wrapped model\"\n\t// Input overwrite\n\t// Out read\n\t// Original model\n\tSimpleRC mod(\nend wrapped;" ∧
    ')' ∉ (write_wrapper "SimpleRC" ⟨[], []⟩).data :=
  ⟨rfl, by decide⟩

/-- C8: for the classification with one Overwrite instance zone.heater
and one Read instance zone.sensor, the wrapper text declares the real
input zone_heater_u, the boolean input zone_heater_activate, the real
output zone_sensor_y bound to mod.zone.sensor.y, and instantiates the
original model connecting uExt and activate of zone.heater to the two
inputs; with no KPI variables the serialized KPI map is the empty JSON
object. -/
theorem write_wrapper_scenario_zone_heater_sensor :
    write_wrapper "SimpleRC" ⟨["zone.heater"], ["zone.sensor"]⟩ =
      "model wrapped \"Wrapped model\"\n" ++
      "\t// Input overwrite\n" ++
      "\tModelica.Blocks.Interfaces.RealInput zone_heater_u \"Signal for overwrite block zone.heater\";\n" ++
      "\tModelica.Blocks.Interfaces.BooleanInput zone_heater_activate \"Activation for overwrite block zone.heater\";\n" ++
      "\t// Out read\n" ++
      "\tModelica.Blocks.Interfaces.RealOutput zone_sensor_y = mod.zone.sensor.y \"Measured signal for zone.sensor\";\n" ++
      "\t// Original model\n" ++
      "\tSimpleRC mod(\n" ++
      "\t\tzone.heater(uExt(y=zone_heater_u),activate(y=zone_heater_activate))) \"Original model with overwrites\";\n" ++
      "end wrapped;" ∧
    serializeKpis [] = "\x7b\x7d" :=
  ⟨rfl, rfl⟩

end BoptestParser
